import Mathlib

/-!
Shallow embedding of `litellm/proxy/hooks/responses_id_security.py`
(the `ResponsesIDSecurity` hook of the litellm proxy), together with
spec-side definitions, used to check the specification's claims about
the response-identifier security layer.

Python strings are embedded as Lean `String`; the Python string
operations used by the source (`str.split`, `str.startswith`, negative
indexing) are embedded as executable functions over the underlying
character lists.  Python exceptions (`HTTPException`, `IndexError`)
are embedded via `Except`.
-/

namespace ResponsesIdSecurity

/-- Embedding of Python `sep in`-scanning: find the first occurrence of the
separator `c :: cs` in a character list, returning the part before the
occurrence and the part after it, or `none` when the separator does not
occur.  This is the core of Python `str.split(sep)`. -/
def findSub (c : Char) (cs : List Char) : List Char → Option (List Char × List Char)
  | [] => none
  | a :: rest =>
    match (c :: cs).isPrefixOf (a :: rest) with
    | true => some ([], List.drop cs.length rest)
    | false => (findSub c cs rest).map fun p => (a :: p.1, p.2)

/-- Fuel-driven worker for Python `str.split(sep)`: repeatedly cut at the
first occurrence of the separator.  Fuel is always instantiated with the
length of the string plus one, which is sufficient since every cut
consumes at least one character. -/
def pySplitAux (c : Char) (cs : List Char) : Nat → List Char → List (List Char)
  | 0, s => [s]
  | fuel + 1, s =>
    match findSub c cs s with
    | none => [s]
    | some (pre, suf) => pre :: pySplitAux c cs fuel suf

/-- Python `str.split(sep)` on character lists (for a non-empty separator
`c :: cs`). -/
def pySplitChars (c : Char) (cs : List Char) (s : List Char) : List (List Char) :=
  pySplitAux c cs (s.length + 1) s

/-- Embedding of Python `s.split(sep)` for a non-empty separator. -/
def pySplit (sep s : String) : List String :=
  match sep.data with
  | [] => [s]
  | c :: cs => (pySplitChars c cs s.data).map fun l => String.mk l

/-- Embedding of Python `s.startswith(pre)`. -/
def pyStartsWith (s pre : String) : Bool :=
  pre.data.isPrefixOf s.data

/-- Character escaping used by the executable model of the symmetric
encryption primitive: `-` becomes `--` and `_` becomes `-u`, so that the
ciphertext body never contains an underscore (and hence never contains
the `resp_` marker). -/
def escChar (c : Char) : List Char :=
  if c = '-' then ['-', '-'] else if c = '_' then ['-', 'u'] else [c]

/-- Escape a whole character list (ciphertext body of the modelled
encryption). -/
def escape : List Char → List Char
  | [] => []
  | c :: rest => escChar c ++ escape rest

/-- Inverse of `escape`; fails on lists that are not valid escapings. -/
def unescape : List Char → Option (List Char)
  | [] => some []
  | c :: rest =>
    if c = '-' then
      match rest with
      | [] => none
      | d :: rest2 =>
        if d = '-' then (unescape rest2).map fun t => '-' :: t
        else if d = 'u' then (unescape rest2).map fun t => '_' :: t
        else none
    else if c = '_' then none
    else (unescape rest).map fun t => c :: t

/-- Modelled from the spec: the symmetric encryption primitive of
`litellm.proxy.common_utils.encrypt_decrypt_utils` (absent from `src/`).
Per the spec it is a deterministic `encrypt(plaintext) -> opaque string`
keyed implicitly by the configured signing key.  The model is an
injective escaping with a recognizable header. -/
def encryptString (s : String) : String :=
  String.mk ('E' :: 'N' :: 'X' :: escape s.data)

/-- Modelled from the spec: the symmetric decryption primitive,
`decrypt(opaque) -> optional string`, which returns `none` (not an
error) on any failure. -/
def decryptString (s : String) : Option String :=
  match s.data with
  | 'E' :: 'N' :: 'X' :: rest => (unescape rest).map String.mk
  | _ => none

/-- Modelled from the spec: `encrypt_value_helper` of
`litellm.proxy.common_utils.encrypt_decrypt_utils` (absent from `src/`),
the `encrypt` collaborator of the Token Codec. -/
def encrypt_value_helper (value : String) : String :=
  encryptString value

/-- Modelled from the spec: `decrypt_value_helper` of
`litellm.proxy.common_utils.encrypt_decrypt_utils` (absent from `src/`),
the `decrypt` collaborator: returns the decrypted plaintext, or `none`
on any decryption failure. -/
def decrypt_value_helper (value : String) : Option String :=
  decryptString value

/-- Modelled from the spec: the value of `LitellmUserRoles.PROXY_ADMIN`
(the admin role of the caller's role enum, absent from `src/`). -/
def proxyAdminRole : String := "proxy_admin"

/-- Modelled from the spec: `SpecialEnums.LITELM_MANAGED_FILE_ID_PREFIX`
(absent from `src/`), the namespace marker that a decrypted payload must
carry to belong to this system. -/
def litellmManagedFileIdMarker : String := "litellm_proxy"

/-- Modelled from the spec:
`SpecialEnums.LITELLM_MANAGED_RESPONSE_API_RESPONSE_ID_COMPLETE_STR.value.format(id, uid, tid)`
(absent from `src/`), the internal payload wire format of §6 of the spec. -/
def litellmManagedResponseIdCompleteStr (response_id user_id team_id : String) : String :=
  "litellm_proxy:responses_api:response_id:" ++ response_id
    ++ ";user_id:" ++ user_id ++ ";team_id:" ++ team_id

/-- Source constant `RESPONSE_ID_SECURITY_CACHE_PREFIX` (renamed; the cache
key namespace). -/
def responseIdSecurityCacheKeyBase : String :=
  "litellm:responses_id_security:response_id:"

/-- Source constant `RESPONSE_ID_SECURITY_CACHE_TTL_SECONDS`. -/
def RESPONSE_ID_SECURITY_CACHE_TTL_SECONDS : Nat := 60 * 60 * 24

/-- Modelled from the spec: the caller-identity fields of `UserAPIKeyAuth`
(absent from `src/`) that this hook reads. -/
structure UserAPIKeyAuth where
  user_role : Option String
  user_id : Option String
  team_id : Option String
  request_route : Option String
  deriving DecidableEq

/-- The process-wide settings read by the hook
(`general_settings.get("disable_responses_id_security", False)`). -/
structure GeneralSettings where
  disable_responses_id_security : Bool
  deriving DecidableEq

/-- The Python exceptions that can escape the embedded functions:
`fastapi.HTTPException` raised by the access check, and `IndexError`
from list indexing. -/
inductive PyExn where
  | httpException (status_code : Nat) (detail : String)
  | indexError
  deriving DecidableEq

/-- Python truthiness of an `Optional[str]`: `None` and `""` are falsy. -/
def truthyOpt : Option String → Bool
  | none => false
  | some s => !(s == "")

/-- The cache value dict written by `_cache_response_id_mapping`
(keys `response_id`, `user_id`, `team_id`; `.get` of a missing key is
`none`). -/
structure CacheMappingEntry where
  response_id : Option String
  user_id : Option String
  team_id : Option String
  deriving DecidableEq

/-- Detail string of the user-mismatch `HTTPException` (source line 120). -/
def userMismatchDetail : String :=
  "Forbidden. The response id is not associated with the user, who this key belongs to. To disable this security feature, set general_settings::disable_responses_id_security to True in the config.yaml file."

/-- Detail string of the team-mismatch `HTTPException` (source line 131). -/
def teamMismatchDetail : String :=
  "Forbidden. The response id is not associated with the team, who this key belongs to. To disable this security feature, set general_settings::disable_responses_id_security to True in the config.yaml file."

/-- Embedding of `ResponsesIDSecurity.check_user_access_to_response_id`
(source lines 98-134).  A raised `HTTPException` is the `.error` case. -/
def check_user_access_to_response_id (general_settings : GeneralSettings)
    (response_id_user_id response_id_team_id : Option String)
    (user_api_key_dict : UserAPIKeyAuth) : Except PyExn Bool :=
  if user_api_key_dict.user_role == some proxyAdminRole then
    .ok true
  else if truthyOpt response_id_user_id
      && (response_id_user_id != user_api_key_dict.user_id) then
    (if general_settings.disable_responses_id_security then .ok true
     else .error (.httpException 403 userMismatchDetail))
  else if truthyOpt response_id_team_id
      && (response_id_team_id != user_api_key_dict.team_id) then
    (if general_settings.disable_responses_id_security then .ok true
     else .error (.httpException 403 teamMismatchDetail))
  else .ok true

/-- Embedding of `ResponsesIDSecurity._is_encrypted_response_id`
(source lines 136-151). -/
def is_encrypted_response_id (response_id : String) : Bool :=
  let split_result := pySplit "resp_" response_id
  if split_result.length < 2 then false
  else
    match decrypt_value_helper (split_result.getD 1 "") with
    | none => false
    | some decrypted_value => pyStartsWith decrypted_value litellmManagedFileIdMarker

/-- Embedding of `ResponsesIDSecurity._decrypt_response_id`
(source lines 153-195).  The unguarded Python access `parts[2]` after a
`len(parts) >= 2` check is embedded as the `.error .indexError` case. -/
def decrypt_response_id (response_id : String) :
    Except PyExn (String × Option String × Option String) :=
  let split_result := pySplit "resp_" response_id
  if split_result.length < 2 then .ok (response_id, none, none)
  else
    match decrypt_value_helper (split_result.getD 1 "") with
    | none => .ok (response_id, none, none)
    | some decrypted_value =>
      if pyStartsWith decrypted_value litellmManagedFileIdMarker then
        let parts := pySplit ";" decrypted_value
        if 2 ≤ parts.length then
          let original_response_id := (pySplit "response_id:" (parts.getD 0 "")).getLastD ""
          let user_id := (pySplit "user_id:" (parts.getD 1 "")).getLastD ""
          match parts[2]? with
          | none => .error .indexError
          | some team_id_part =>
            let team_id := (pySplit "team_id:" team_id_part).getLastD ""
            .ok (original_response_id, some user_id, some team_id)
        else .ok (response_id, none, none)
      else .ok (response_id, none, none)

/-- The token built by `_encrypt_response_id` (source lines 235-246) for a
plaintext id and the already-defaulted owner strings: the payload is
formatted, encrypted, and the `resp_` marker re-applied. -/
def tagResponseIdStr (response_id user_id team_id : String) : String :=
  "resp_" ++ encrypt_value_helper
    (litellmManagedResponseIdCompleteStr response_id user_id team_id)

/-- The codec-level `tag` operation: owner fields default to `""` via
Python `or ""` (source lines 237-238). -/
def tagResponseId (response_id : String) (user_id team_id : Option String) : String :=
  tagResponseIdStr response_id (user_id.getD "") (team_id.getD "")

/-- The token built for a plaintext id with the calling identity's owner
fields defaulted via Python `or ""` (the expression of source lines
235-239 and 249-253). -/
def tagForCaller (user_api_key_dict : UserAPIKeyAuth) (response_id : String) : String :=
  tagResponseIdStr response_id (user_api_key_dict.user_id.getD "")
    (user_api_key_dict.team_id.getD "")

/-- A caller identity with every field absent (used as a concrete sample
input in witnesses and counterexamples). -/
def emptyCaller : UserAPIKeyAuth :=
  { user_role := none, user_id := none, team_id := none, request_route := none }

/-- The nested `ResponsesAPIResponse` payload (only its `id` field is
read/written by this hook). -/
structure ResponsesAPIResponse where
  id : String
  deriving DecidableEq

/-- A `BaseLiteLLMOpenAIResponseObject`: optional top-level `id` attribute
(absent or non-string attributes are `none`) and optional nested
`response` attribute holding a `ResponsesAPIResponse`. -/
structure BaseResponse where
  id : Option String
  response : Option ResponsesAPIResponse
  deriving DecidableEq

/-- The response-id shape test applied to the top-level id:
truthy string starting with `resp_`. -/
def idMatchesRespShape : Option String → Bool
  | none => false
  | some rid => (!(rid == "")) && pyStartsWith rid "resp_"

/-- The `elif` branch of `_encrypt_response_id` (source lines 248-260):
rewrite the nested payload's id (no shape check on it). -/
def encryptNested (response : BaseResponse)
    (user_api_key_dict : UserAPIKeyAuth) : BaseResponse :=
  match response.response with
  | some response_obj =>
    let newId := tagResponseIdStr response_obj.id
      (user_api_key_dict.user_id.getD "") (user_api_key_dict.team_id.getD "")
    { response with response := some { id := newId } }
  | none => response

/-- Embedding of `ResponsesIDSecurity._encrypt_response_id`
(source lines 208-261).  The signing key presence is the explicit first
argument (source `_get_signing_key`). -/
def encrypt_response_id (signing_key : Option String) (response : BaseResponse)
    (user_api_key_dict : UserAPIKeyAuth) : BaseResponse :=
  match signing_key with
  | none => response
  | some _ =>
    match response.id with
    | some response_id =>
      if (!(response_id == "")) && pyStartsWith response_id "resp_" then
        { response with id := some (tagResponseIdStr response_id
            (user_api_key_dict.user_id.getD "") (user_api_key_dict.team_id.getD "")) }
      else encryptNested response user_api_key_dict
    | none => encryptNested response user_api_key_dict

/-- The nested-id half of `_get_primary_response_id`
(source lines 380-388). -/
def getPrimaryNested (response : BaseResponse) : Option String :=
  match response.response with
  | some response_obj =>
    if (!(response_obj.id == "")) && pyStartsWith response_obj.id "resp_" then
      some response_obj.id
    else none
  | none => none

/-- Embedding of `ResponsesIDSecurity._get_primary_response_id`
(source lines 368-388). -/
def get_primary_response_id (response : BaseResponse) : Option String :=
  match response.id with
  | some response_id =>
    if (!(response_id == "")) && pyStartsWith response_id "resp_" then
      some response_id
    else getPrimaryNested response
  | none => getPrimaryNested response

/-- Embedding of `ResponsesIDSecurity._get_cached_response_id_mapping`
(source lines 289-304).  `internal_usage_cache` is `none` when the hook
has no cache; otherwise the underlying `async_get_cache` either returns a
value or raises (`Except.error`), and any raise is caught, logged, and
turned into `none`. -/
def get_cached_response_id_mapping
    (internal_usage_cache : Option (String → Except String (Option CacheMappingEntry)))
    (encrypted_response_id : String) : Option CacheMappingEntry :=
  match internal_usage_cache with
  | none => none
  | some cacheFetch =>
    match cacheFetch (responseIdSecurityCacheKeyBase ++ encrypted_response_id) with
    | .ok v => v
    | .error _ => none

/-- Embedding of the control flow of
`ResponsesIDSecurity._cache_response_id_mapping` (source lines 263-287):
given the outcome of the underlying `async_set_cache` call (`none` when
`internal_usage_cache` is `None` and the body returns early), the
method itself never raises — the try/except swallows any error. -/
def cache_response_id_mapping_result
    (cacheStoreOutcome : Option (Except String Unit)) : Except PyExn Unit :=
  match cacheStoreOutcome with
  | none => .ok ()
  | some (.ok _) => .ok ()
  | some (.error _) => .ok ()

/-- The cache write attempted by `_cache_response_id_mapping`
(source lines 263-287) when `internal_usage_cache` is present: the
namespaced key and the value dict. -/
def cache_response_id_mapping_writes (hasInternalUsageCache : Bool)
    (encrypted_response_id original_response_id : String)
    (user_api_key_dict : UserAPIKeyAuth) : List (String × CacheMappingEntry) :=
  if hasInternalUsageCache then
    [(responseIdSecurityCacheKeyBase ++ encrypted_response_id,
      { response_id := some original_response_id,
        user_id := user_api_key_dict.user_id,
        team_id := user_api_key_dict.team_id })]
  else []

/-- Embedding of `ResponsesIDSecurity._resolve_encrypted_response_id`
(source lines 75-96), parameterized over the access-check function so
that theorems can state that the check is not invoked on a given path. -/
def resolve_encrypted_response_id_with
    (check : GeneralSettings → Option String → Option String → UserAPIKeyAuth → Except PyExn Bool)
    (general_settings : GeneralSettings)
    (internal_usage_cache : Option (String → Except String (Option CacheMappingEntry)))
    (user_api_key_dict : UserAPIKeyAuth)
    (response_id : String) : Except PyExn (Option String) :=
  if is_encrypted_response_id response_id then
    match decrypt_response_id response_id with
    | .error e => .error e
    | .ok (original_response_id, user_id, team_id) =>
      match check general_settings user_id team_id user_api_key_dict with
      | .error e => .error e
      | .ok _ => .ok (some original_response_id)
  else
    match get_cached_response_id_mapping internal_usage_cache response_id with
    | none => .ok none
    | some cached_mapping =>
      match check general_settings cached_mapping.user_id cached_mapping.team_id
          user_api_key_dict with
      | .error e => .error e
      | .ok _ => .ok cached_mapping.response_id

/-- `_resolve_encrypted_response_id` with the source's own access check. -/
def resolve_encrypted_response_id (general_settings : GeneralSettings)
    (internal_usage_cache : Option (String → Except String (Option CacheMappingEntry)))
    (user_api_key_dict : UserAPIKeyAuth) (response_id : String) :
    Except PyExn (Option String) :=
  resolve_encrypted_response_id_with check_user_access_to_response_id
    general_settings internal_usage_cache user_api_key_dict response_id

/-- The call types checked by `async_pre_call_hook` (source lines 46-51). -/
inductive CallType where
  | aresponses
  | aget_responses
  | adelete_responses
  | acancel_responses
  | other
  deriving DecidableEq

/-- The request fields that `async_pre_call_hook` may rewrite. -/
structure RequestData where
  previous_response_id : Option String
  response_id : Option String
  deriving DecidableEq

/-- Embedding of `ResponsesIDSecurity.async_pre_call_hook`
(source lines 38-73), parameterized over the access-check function.
Python `return None` for non-responses call types is `.ok none`;
otherwise the (possibly updated) data dict is returned. -/
def async_pre_call_hook_with
    (check : GeneralSettings → Option String → Option String → UserAPIKeyAuth → Except PyExn Bool)
    (general_settings : GeneralSettings)
    (internal_usage_cache : Option (String → Except String (Option CacheMappingEntry)))
    (user_api_key_dict : UserAPIKeyAuth) (data : RequestData) (call_type : CallType) :
    Except PyExn (Option RequestData) :=
  match call_type with
  | .aresponses =>
    match data.previous_response_id with
    | some previous_response_id =>
      if previous_response_id == "" then .ok (some data)
      else
        match resolve_encrypted_response_id_with check general_settings
            internal_usage_cache user_api_key_dict previous_response_id with
        | .error e => .error e
        | .ok (some resolved) => .ok (some { data with previous_response_id := some resolved })
        | .ok none => .ok (some data)
    | none => .ok (some data)
  | .aget_responses | .adelete_responses | .acancel_responses =>
    match data.response_id with
    | some response_id =>
      if response_id == "" then .ok (some data)
      else
        match resolve_encrypted_response_id_with check general_settings
            internal_usage_cache user_api_key_dict response_id with
        | .error e => .error e
        | .ok (some resolved) => .ok (some { data with response_id := some resolved })
        | .ok none => .ok (some data)
    | none => .ok (some data)
  | .other => .ok none

/-- The response types reaching `async_post_call_success_hook`: only a
`ResponsesAPIResponse` instance is processed. -/
inductive LLMResponse where
  | responses (r : BaseResponse)
  | otherResponse
  deriving DecidableEq

/-- Embedding of `ResponsesIDSecurity.async_post_call_success_hook`
(source lines 306-339).  Returns the (possibly rewritten) response and
the list of cache writes attempted by `_cache_response_id_mapping`. -/
def async_post_call_success_hook (general_settings : GeneralSettings)
    (signing_key : Option String) (hasInternalUsageCache : Bool)
    (user_api_key_dict : UserAPIKeyAuth) (response : LLMResponse) :
    LLMResponse × List (String × CacheMappingEntry) :=
  if general_settings.disable_responses_id_security then (response, [])
  else
    match response with
    | .responses r =>
      let original_response_id := get_primary_response_id r
      let r2 := encrypt_response_id signing_key r user_api_key_dict
      let encrypted_response_id := get_primary_response_id r2
      match original_response_id, encrypted_response_id with
      | some o, some e =>
        if o != e then
          (.responses r2,
           cache_response_id_mapping_writes hasInternalUsageCache e o user_api_key_dict)
        else (.responses r2, [])
      | _, _ => (.responses r2, [])
    | .otherResponse => (response, [])

/-- A streamed chunk: `some` when the yielded object is a
`BaseLiteLLMOpenAIResponseObject`, `none` otherwise. -/
abbrev Chunk := Option BaseResponse

/-- The per-chunk body of `async_post_call_streaming_iterator_hook`
(source lines 346-366). -/
def process_stream_chunk (general_settings : GeneralSettings)
    (signing_key : Option String) (hasInternalUsageCache : Bool)
    (user_api_key_dict : UserAPIKeyAuth) (chunk : Chunk) :
    Chunk × List (String × CacheMappingEntry) :=
  match chunk with
  | none => (none, [])
  | some b =>
    if (user_api_key_dict.request_route == some "/v1/responses")
        && !general_settings.disable_responses_id_security then
      let original_response_id := get_primary_response_id b
      let b2 := encrypt_response_id signing_key b user_api_key_dict
      let encrypted_response_id := get_primary_response_id b2
      match original_response_id, encrypted_response_id with
      | some o, some e =>
        if o != e then
          (some b2,
           cache_response_id_mapping_writes hasInternalUsageCache e o user_api_key_dict)
        else (some b2, [])
      | _, _ => (some b2, [])
    else (some b, [])

/-- Embedding of `ResponsesIDSecurity.async_post_call_streaming_iterator_hook`
(source lines 341-366) over a finite stream of chunks: each chunk is
processed then yielded, in emission order. -/
def async_post_call_streaming_iterator_hook (general_settings : GeneralSettings)
    (signing_key : Option String) (hasInternalUsageCache : Bool)
    (user_api_key_dict : UserAPIKeyAuth) :
    List Chunk → List Chunk × List (String × CacheMappingEntry)
  | [] => ([], [])
  | chunk :: rest =>
    let p := process_stream_chunk general_settings signing_key hasInternalUsageCache
      user_api_key_dict chunk
    let pr := async_post_call_streaming_iterator_hook general_settings signing_key
      hasInternalUsageCache user_api_key_dict rest
    (p.1 :: pr.1, p.2 ++ pr.2)

/-- Spec-side authorization decision (§4.3 of the spec / claim C1). -/
inductive AuthDecision where
  | allow
  | denyUserMismatch
  | denyTeamMismatch
  deriving DecidableEq

/-- The authorization algorithm exactly as claim C1 states it: admin
allows unconditionally; else a set-and-different owner user id allows
under `securityDisabled` and otherwise denies with the user-mismatch
reason; else the same for the team id; else allow.  An owner field is
"set" when it is a present, non-empty string. -/
def authorizeSpec (securityDisabled : Bool) (owner_user owner_team : Option String)
    (caller : UserAPIKeyAuth) : AuthDecision :=
  if caller.user_role == some proxyAdminRole then .allow
  else if truthyOpt owner_user && (owner_user != caller.user_id) then
    (if securityDisabled then .allow else .denyUserMismatch)
  else if truthyOpt owner_team && (owner_team != caller.team_id) then
    (if securityDisabled then .allow else .denyTeamMismatch)
  else .allow

/-- Map a spec-side decision to the source's result: Allow is `True`, the
two Deny reasons are the corresponding 403 `HTTPException`s. -/
def authDecisionToResult : AuthDecision → Except PyExn Bool
  | .allow => .ok true
  | .denyUserMismatch => .error (.httpException 403 userMismatchDetail)
  | .denyTeamMismatch => .error (.httpException 403 teamMismatchDetail)

theorem strEta (s : String) : String.mk s.data = s := rfl

theorem strDataAppend (a b : String) : (a ++ b).data = a.data ++ b.data := by
  cases a
  cases b
  rfl

theorem isPrefixOf_self_append (l t : List Char) : l.isPrefixOf (l ++ t) = true := by
  induction l with
  | nil => simp [List.isPrefixOf]
  | cons c cs ih => simp [List.isPrefixOf, ih]

theorem mem_of_isPrefixOf {sep s : List Char} (h : sep.isPrefixOf s = true) :
    ∀ a ∈ sep, a ∈ s := by
  induction sep generalizing s with
  | nil => intro a ha; cases ha
  | cons c cs ih =>
    cases s with
    | nil => cases h
    | cons b bs =>
      simp only [List.isPrefixOf, Bool.and_eq_true, beq_iff_eq] at h
      intro a ha
      rcases List.mem_cons.mp ha with h1 | h2
      · exact List.mem_cons.mpr (Or.inl (h1.trans h.1))
      · exact List.mem_cons.mpr (Or.inr (ih h.2 a h2))

theorem findSub_none_of_not_mem {a : Char} {c : Char} {cs s : List Char}
    (ha : a ∈ c :: cs) (hs : a ∉ s) : findSub c cs s = none := by
  induction s with
  | nil => rfl
  | cons b bs ih =>
    have hn : a ∉ bs := fun h => hs (List.mem_cons.mpr (Or.inr h))
    rw [findSub]
    cases hpre : (c :: cs).isPrefixOf (b :: bs) with
    | true => exact absurd (mem_of_isPrefixOf hpre a ha) hs
    | false => rw [ih hn]; rfl

theorem findSub_suf_lt {c : Char} {cs s pre suf : List Char}
    (h : findSub c cs s = some (pre, suf)) : suf.length < s.length := by
  induction s generalizing pre with
  | nil => cases h
  | cons b bs ih =>
    rw [findSub] at h
    cases hpre : (c :: cs).isPrefixOf (b :: bs) with
    | true =>
      rw [hpre] at h
      simp only [Option.some.injEq, Prod.mk.injEq] at h
      obtain ⟨_, h2⟩ := h
      rw [← h2]
      simp only [List.length_drop, List.length_cons]
      omega
    | false =>
      rw [hpre] at h
      cases hfs : findSub c cs bs with
      | none => rw [hfs] at h; cases h
      | some p =>
        obtain ⟨p1, p2⟩ := p
        rw [hfs] at h
        simp only [Option.map_some', Option.some.injEq, Prod.mk.injEq] at h
        obtain ⟨_, h2⟩ := h
        subst h2
        have := ih hfs
        simp only [List.length_cons]
        omega

theorem findSub_singleton {c : Char} {A : List Char} (t : List Char) (hA : c ∉ A) :
    findSub c [] (A ++ c :: t) = some (A, t) := by
  induction A with
  | nil => simp [findSub, List.isPrefixOf]
  | cons a A' ih =>
    have hca : (c == a) = false := by
      have : c ≠ a := fun h => hA (by rw [h]; exact List.mem_cons_self a A')
      simp [this]
    have hA' : c ∉ A' := fun h => hA (List.mem_cons.mpr (Or.inr h))
    rw [List.cons_append, findSub]
    simp only [List.isPrefixOf, hca, Bool.false_and]
    rw [ih hA']
    rfl

theorem pySplitAux_succ (c : Char) (cs : List Char) (fuel : Nat) (s : List Char) :
    pySplitAux c cs (fuel + 1) s
      = match findSub c cs s with
        | none => [s]
        | some (pre, suf) => pre :: pySplitAux c cs fuel suf := rfl

theorem pySplitAux_step (c : Char) (cs : List Char) (fuel : Nat)
    (s pre suf : List Char) (h : findSub c cs s = some (pre, suf)) :
    pySplitAux c cs (fuel + 1) s = pre :: pySplitAux c cs fuel suf := by
  rw [pySplitAux_succ, h]

theorem pySplitAux_none (c : Char) (cs : List Char) (fuel : Nat)
    (s : List Char) (h : findSub c cs s = none) :
    pySplitAux c cs (fuel + 1) s = [s] := by
  rw [pySplitAux_succ, h]

theorem pySplitAux_fuelIrrel (c : Char) (cs : List Char) :
    ∀ (n : Nat) (s : List Char), s.length ≤ n →
      ∀ f g, s.length ≤ f → s.length ≤ g →
        pySplitAux c cs (f + 1) s = pySplitAux c cs (g + 1) s := by
  intro n
  induction n with
  | zero =>
    intro s hs f g _ _
    have hnil : s = [] := List.length_eq_zero.mp (Nat.le_zero.mp hs)
    subst hnil
    have hfind : findSub c cs [] = none := rfl
    rw [pySplitAux_none c cs f [] hfind, pySplitAux_none c cs g [] hfind]
  | succ n ih =>
    intro s hs f g hf hg
    cases hfind : findSub c cs s with
    | none => rw [pySplitAux_none c cs f s hfind, pySplitAux_none c cs g s hfind]
    | some p =>
      obtain ⟨pre, suf⟩ := p
      have hlt := findSub_suf_lt hfind
      rw [pySplitAux_step c cs f s pre suf hfind, pySplitAux_step c cs g s pre suf hfind]
      obtain ⟨f', rfl⟩ : ∃ f', f = f' + 1 := ⟨f - 1, by omega⟩
      obtain ⟨g', rfl⟩ : ∃ g', g = g' + 1 := ⟨g - 1, by omega⟩
      rw [ih suf (by omega) f' g' (by omega) (by omega)]

theorem pySplitChars_none {c : Char} {cs s : List Char}
    (h : findSub c cs s = none) : pySplitChars c cs s = [s] := by
  unfold pySplitChars
  rw [pySplitAux_none c cs s.length s h]

theorem pySplitChars_step {c : Char} {cs s pre suf : List Char}
    (h : findSub c cs s = some (pre, suf)) :
    pySplitChars c cs s = pre :: pySplitChars c cs suf := by
  have hlt := findSub_suf_lt h
  show pySplitAux c cs (s.length + 1) s = pre :: pySplitAux c cs (suf.length + 1) suf
  rw [pySplitAux_step c cs s.length s pre suf h]
  obtain ⟨m, hm⟩ : ∃ m, s.length = m + 1 := ⟨s.length - 1, by omega⟩
  rw [hm]
  rw [pySplitAux_fuelIrrel c cs m suf (by omega) m suf.length (by omega) (Nat.le_refl _)]

theorem escape_no_underscore (l : List Char) : '_' ∉ escape l := by
  induction l with
  | nil => simp [escape]
  | cons c rest ih =>
    simp only [escape, List.mem_append]
    rintro (h | h)
    · unfold escChar at h
      by_cases hc : c = '-'
      · simp [hc] at h
      · by_cases hu : c = '_'
        · simp [hc, hu] at h
        · simp [hc, hu] at h
          exact hu h.symm
    · exact ih h

theorem unescape_cons_plain {c : Char} {l r : List Char} (hc : ¬ c = '-')
    (hu : ¬ c = '_') (ih : unescape l = some r) :
    unescape (c :: l) = some (c :: r) := by
  rw [unescape.eq_def]
  simp [hc, hu, ih]

theorem unescape_cons_dash {l r : List Char} (ih : unescape l = some r) :
    unescape ('-' :: '-' :: l) = some ('-' :: r) := by
  rw [unescape.eq_def]
  simp [ih]

theorem unescape_cons_und {l r : List Char} (ih : unescape l = some r) :
    unescape ('-' :: 'u' :: l) = some ('_' :: r) := by
  rw [unescape.eq_def]
  simp [ih]

theorem unescape_escape (l : List Char) : unescape (escape l) = some l := by
  induction l with
  | nil => rfl
  | cons c rest ih =>
    by_cases hc : c = '-'
    · subst hc
      simp only [escape, escChar, if_pos rfl, List.cons_append, List.nil_append]
      exact unescape_cons_dash ih
    · by_cases hu : c = '_'
      · subst hu
        simp only [escape, escChar, if_neg hc, if_pos rfl, List.cons_append,
          List.nil_append]
        exact unescape_cons_und ih
      · simp only [escape, escChar, if_neg hc, if_neg hu, List.singleton_append]
        exact unescape_cons_plain hc hu ih

theorem decrypt_encrypt (s : String) : decryptString (encryptString s) = some s := by
  simp [encryptString, decryptString, unescape_escape, strEta]

theorem findSub_marker (l : List Char) :
    findSub 'r' "esp_".data ('r' :: 'e' :: 's' :: 'p' :: '_' :: l) = some ([], l) := by
  simp [findSub, List.isPrefixOf]

theorem findSub_ns (l : List Char) :
    findSub 'r' "esponse_id:".data ("litellm_proxy:responses_api:response_id:".data ++ l)
      = some ("litellm_proxy:responses_api:".data, l) := by
  simp [findSub, List.isPrefixOf]

theorem findSub_user (l : List Char) :
    findSub 'u' "ser_id:".data ("user_id:".data ++ l) = some ([], l) := by
  show findSub 'u' "ser_id:".data
    ('u' :: 's' :: 'e' :: 'r' :: '_' :: 'i' :: 'd' :: ':' :: l) = some ([], l)
  simp [findSub, List.isPrefixOf]

theorem findSub_team (l : List Char) :
    findSub 't' "eam_id:".data ("team_id:".data ++ l) = some ([], l) := by
  show findSub 't' "eam_id:".data
    ('t' :: 'e' :: 'a' :: 'm' :: '_' :: 'i' :: 'd' :: ':' :: l) = some ([], l)
  simp [findSub, List.isPrefixOf]

theorem pySplit_eq {sep : String} (s : String) {c : Char} {cs : List Char}
    (h : sep.data = c :: cs) :
    pySplit sep s = (pySplitChars c cs s.data).map String.mk := by
  simp only [pySplit, h]

theorem mk_data (l : List Char) : (String.mk l).data = l := rfl

theorem encBody_no_underscore (p : String) :
    '_' ∉ 'E' :: 'N' :: 'X' :: escape p.data := by
  intro hmem
  simp only [List.mem_cons] at hmem
  rcases hmem with h | h | h | h
  · exact absurd h (by decide)
  · exact absurd h (by decide)
  · exact absurd h (by decide)
  · exact escape_no_underscore p.data h

theorem tok_split (p : String) :
    pySplit "resp_" ("resp_" ++ encryptString p) = ["", encryptString p] := by
  have hsep : "resp_".data = 'r' :: "esp_".data := rfl
  rw [pySplit_eq ("resp_" ++ encryptString p) hsep]
  have hTokData : ("resp_" ++ encryptString p).data
      = 'r' :: 'e' :: 's' :: 'p' :: '_' :: ('E' :: 'N' :: 'X' :: escape p.data) := by
    rw [strDataAppend]
    rfl
  rw [hTokData]
  rw [pySplitChars_step (findSub_marker ('E' :: 'N' :: 'X' :: escape p.data))]
  rw [pySplitChars_none
    (findSub_none_of_not_mem (show '_' ∈ 'r' :: "esp_".data by decide)
      (encBody_no_underscore p))]
  rfl

theorem decrypt_tag_roundTrip (id uid tid : String)
    (h1 : ';' ∉ id.data) (h2 : ';' ∉ uid.data) (h3 : ';' ∉ tid.data)
    (h4 : findSub 'r' "esponse_id:".data id.data = none)
    (h5 : findSub 'u' "ser_id:".data uid.data = none)
    (h6 : findSub 't' "eam_id:".data tid.data = none) :
    decrypt_response_id (tagResponseIdStr id uid tid)
      = .ok (id, some uid, some tid) := by
  have hTag : tagResponseIdStr id uid tid
      = "resp_" ++ encryptString (litellmManagedResponseIdCompleteStr id uid tid) := rfl
  set p := litellmManagedResponseIdCompleteStr id uid tid with hp
  set A := "litellm_proxy:responses_api:response_id:".data ++ id.data with hA
  set B := "user_id:".data ++ uid.data with hB
  set C := "team_id:".data ++ tid.data with hC
  have hPayload : p.data = A ++ ';' :: (B ++ ';' :: C) := by
    rw [hp]
    simp only [litellmManagedResponseIdCompleteStr, strDataAppend, hA, hB, hC]
    simp [List.append_assoc, List.cons_append]
  have hAnot : ';' ∉ A := by
    intro h
    rcases List.mem_append.mp h with h | h
    · exact absurd h (by decide)
    · exact h1 h
  have hBnot : ';' ∉ B := by
    intro h
    rcases List.mem_append.mp h with h | h
    · exact absurd h (by decide)
    · exact h2 h
  have hCnot : ';' ∉ C := by
    intro h
    rcases List.mem_append.mp h with h | h
    · exact absurd h (by decide)
    · exact h3 h
  have hStarts : pyStartsWith p litellmManagedFileIdMarker = true := by
    unfold pyStartsWith litellmManagedFileIdMarker
    rw [hPayload, hA]
    have hns : "litellm_proxy:responses_api:response_id:".data
        = "litellm_proxy".data ++ ":responses_api:response_id:".data := rfl
    rw [hns]
    simp only [List.append_assoc, List.cons_append]
    exact isPrefixOf_self_append _ _
  have hSplitSemi : pySplit ";" p = [String.mk A, String.mk B, String.mk C] := by
    have hsep : ";".data = ';' :: [] := rfl
    rw [pySplit_eq p hsep, hPayload]
    rw [pySplitChars_step (findSub_singleton (B ++ ';' :: C) hAnot)]
    rw [pySplitChars_step (findSub_singleton C hBnot)]
    rw [pySplitChars_none
      (findSub_none_of_not_mem (show (';' : Char) ∈ [';'] by decide) hCnot)]
    rfl
  have hRespId : (pySplit "response_id:" (String.mk A)).getLastD "" = id := by
    have hsep : "response_id:".data = 'r' :: "esponse_id:".data := rfl
    rw [pySplit_eq (String.mk A) hsep, mk_data, hA]
    rw [pySplitChars_step (findSub_ns id.data)]
    rw [pySplitChars_none h4]
    simp [List.getLastD, strEta]
  have hUser : (pySplit "user_id:" (String.mk B)).getLastD "" = uid := by
    have hsep : "user_id:".data = 'u' :: "ser_id:".data := rfl
    rw [pySplit_eq (String.mk B) hsep, mk_data, hB]
    rw [pySplitChars_step (findSub_user uid.data)]
    rw [pySplitChars_none h5]
    simp [List.getLastD, strEta]
  have hTeam : (pySplit "team_id:" (String.mk C)).getLastD "" = tid := by
    have hsep : "team_id:".data = 't' :: "eam_id:".data := rfl
    rw [pySplit_eq (String.mk C) hsep, mk_data, hC]
    rw [pySplitChars_step (findSub_team tid.data)]
    rw [pySplitChars_none h6]
    simp [List.getLastD, strEta]
  rw [hTag]
  simp [decrypt_response_id, tok_split p, decrypt_value_helper, decrypt_encrypt,
    hStarts, hSplitSemi, hRespId, hUser, hTeam, List.getD]
  exact ⟨by simpa using hRespId, by simpa using hUser, by simpa using hTeam⟩

/-- C1: `check_user_access_to_response_id` implements exactly the claim's
algorithm: if the caller's role is admin, Allow unconditionally; otherwise
if the owner user id is set (present and non-empty) and differs from the
caller's, Allow when security is disabled and otherwise Deny with the
user-mismatch reason; otherwise the same check on the team id with the
team-mismatch reason; otherwise Allow.  User-mismatch is evaluated
strictly before team-mismatch, so the first applicable mismatch fixes the
denial reason. -/
theorem c1_authorize_algorithm (general_settings : GeneralSettings)
    (owner_user owner_team : Option String) (caller : UserAPIKeyAuth) :
    check_user_access_to_response_id general_settings owner_user owner_team caller
      = authDecisionToResult
          (authorizeSpec general_settings.disable_responses_id_security
            owner_user owner_team caller) := by
  unfold check_user_access_to_response_id authorizeSpec
  split_ifs <;> rfl

/-- C2 counterexample: for the plaintext id `"a;b"` (which contains the
payload delimiter `;`) and owner `("u", "t")`, decoding the tagged token
does not recover `("a;b", "u", "t")`, refuting the claim's universally
quantified round-trip. -/
theorem c2_roundtrip_counterexample :
    decrypt_response_id (tagResponseId "a;b" (some "u") (some "t"))
      ≠ Except.ok ("a;b", some "u", some "t") := by
  intro h
  have h2 : decrypt_response_id (tagResponseId "a;b" (some "u") (some "t"))
      = Except.ok ("a", some "b", some "user_id:u") := rfl
  rw [h2] at h
  exact absurd (Except.ok.inj h) (by decide)

/-- C2 (amended): with a signing key configured, the round-trip
`detag (tag id owner) = (id, owner)` holds for owner fields encoded as
strings (an absent field is stored and recovered as `""`) whenever the id
and owner fields contain no `;` delimiter and do not contain their own
field label (`response_id:` inside the id, `user_id:` inside the user id,
`team_id:` inside the team id). -/
theorem c2_roundtrip_amended (id uid tid : String)
    (h1 : ';' ∉ id.data) (h2 : ';' ∉ uid.data) (h3 : ';' ∉ tid.data)
    (h4 : findSub 'r' "esponse_id:".data id.data = none)
    (h5 : findSub 'u' "ser_id:".data uid.data = none)
    (h6 : findSub 't' "eam_id:".data tid.data = none) :
    decrypt_response_id (tagResponseId id (some uid) (some tid))
      = .ok (id, some uid, some tid) :=
  decrypt_tag_roundTrip id uid tid h1 h2 h3 h4 h5 h6

/-- C2 witness: the concrete round-trip of the spec's own scenario,
obtained from the amended theorem. -/
theorem c2_roundtrip_amended_witness :
    decrypt_response_id (tagResponseId "resp_abc123" (some "u1") (some "t1"))
      = .ok ("resp_abc123", some "u1", some "t1") :=
  c2_roundtrip_amended "resp_abc123" "u1" "t1" (by decide) (by decide) (by decide)
    (by decide) (by decide) (by decide)

/-- C3: evaluating the code at the failing input.  A token whose decrypted
payload carries the namespace marker but only two semicolon-delimited
fields makes `_decrypt_response_id` raise `IndexError` (the unguarded
`parts[2]` access) instead of returning the original token with an empty
owner as the claim requires. -/
theorem c3_two_field_payload_raises :
    decrypt_response_id
        ("resp_" ++ encryptString "litellm_proxy:responses_api:response_id:abc;user_id:u2")
      = .error PyExn.indexError := rfl

/-- C4: evaluating the code at the failing input.  Inbound resolution of a
marker-matching token whose payload has only two delimited fields aborts
with `IndexError` — an exception that is not an authorization denial —
contradicting the claim that denial is the only aborting outcome. -/
theorem c4_resolve_two_field_token_raises :
    resolve_encrypted_response_id { disable_responses_id_security := false } none
        { user_role := none, user_id := some "u4", team_id := none, request_route := none }
        ("resp_" ++ encryptString "litellm_proxy:responses_api:response_id:xyz;user_id:u4")
      = .error PyExn.indexError := rfl

/-- C10: an owner tag whose user and team components are absent or empty
strings never causes a denial — the access check treats them as
unconstrained for every caller and settings — and a token tagged with
absent owner ids (encoded as empty strings) decodes to the empty-string
owner, which every caller is authorized against. -/
theorem c10_empty_owner_allows :
    (∀ (general_settings : GeneralSettings) (caller : UserAPIKeyAuth)
        (u t : Option String), (u = none ∨ u = some "") → (t = none ∨ t = some "") →
        check_user_access_to_response_id general_settings u t caller = .ok true)
    ∧ (∀ id : String, ';' ∉ id.data →
        findSub 'r' "esponse_id:".data id.data = none →
        decrypt_response_id (tagResponseId id none none)
          = .ok (id, some "", some "")) := by
  constructor
  · intro gs caller u t hu ht
    have hu' : truthyOpt u = false := by rcases hu with rfl | rfl <;> rfl
    have ht' : truthyOpt t = false := by rcases ht with rfl | rfl <;> rfl
    unfold check_user_access_to_response_id
    simp [hu', ht']
  · intro id hid hresp
    exact decrypt_tag_roundTrip id "" "" hid (by decide) (by decide) hresp rfl rfl

/-- C10 witness: a concrete caller is allowed against an empty-string
owner, and a concrete token tagged with absent owner ids decodes to the
empty-string owner. -/
theorem c10_empty_owner_allows_witness :
    check_user_access_to_response_id { disable_responses_id_security := false }
        (some "") none
        { user_role := none, user_id := some "caller", team_id := none,
          request_route := none }
      = .ok true
    ∧ decrypt_response_id (tagResponseId "resp_w" none none)
      = .ok ("resp_w", some "", some "") :=
  ⟨c10_empty_owner_allows.1 _ _ _ _ (Or.inr rfl) (Or.inl rfl),
   c10_empty_owner_allows.2 "resp_w" (by decide) (by decide)⟩

/-- C5 counterexample: the string `"x" ++ tag("resp_abc", u, t)` does not
start with the `resp_` marker, so the claim requires NotAToken without
attempting decryption; the code instead scans for `resp_` anywhere,
treats the string as an owner-tagged token, and decodes it. -/
theorem c5_marker_midstring_counterexample :
    pyStartsWith ("x" ++ tagResponseId "resp_abc" (some "u") (some "t")) "resp_" = false
    ∧ is_encrypted_response_id ("x" ++ tagResponseId "resp_abc" (some "u") (some "t")) = true
    ∧ decrypt_response_id ("x" ++ tagResponseId "resp_abc" (some "u") (some "t"))
        = .ok ("resp_abc", some "u", some "t") :=
  ⟨rfl, rfl, rfl⟩

/-- C5 (amended): detag keys on the first occurrence of `resp_` anywhere
in the input, not only at the start.  For every string with no occurrence
of `resp_` (including the empty string), and for every string whose
segment after the first occurrence either fails to decrypt or decrypts to
a payload not carrying the namespace marker, the result is NotAToken
(`_is_encrypted_response_id` is false and `_decrypt_response_id` returns
the input with an empty owner) and no exception is raised. -/
theorem c5_notatoken_amended (s : String)
    (h : (pySplit "resp_" s).length < 2
      ∨ (∀ d, decrypt_value_helper ((pySplit "resp_" s).getD 1 "") = some d →
          pyStartsWith d litellmManagedFileIdMarker = false)) :
    is_encrypted_response_id s = false
    ∧ decrypt_response_id s = .ok (s, none, none) := by
  constructor
  · unfold is_encrypted_response_id
    by_cases hlen : (pySplit "resp_" s).length < 2
    · simp [hlen]
    · rcases h with h | h
      · exact absurd h hlen
      · simp only [if_neg hlen]
        cases hd : decrypt_value_helper ((pySplit "resp_" s).getD 1 "") with
        | none => simp [hd]
        | some d => simp [hd, h d hd]
  · unfold decrypt_response_id
    by_cases hlen : (pySplit "resp_" s).length < 2
    · simp [hlen]
    · rcases h with h | h
      · exact absurd h hlen
      · simp only [if_neg hlen]
        cases hd : decrypt_value_helper ((pySplit "resp_" s).getD 1 "") with
        | none => simp [hd]
        | some d => simp [hd, h d hd]

/-- C5 witness: the empty string and a garbage-after-marker string are
both rejected as NotAToken, by the amended theorem. -/
theorem c5_notatoken_amended_witness :
    (is_encrypted_response_id "" = false
      ∧ decrypt_response_id "" = .ok ("", none, none))
    ∧ (is_encrypted_response_id "resp_garbage" = false
      ∧ decrypt_response_id "resp_garbage" = .ok ("resp_garbage", none, none)) :=
  ⟨c5_notatoken_amended "" (Or.inl (by decide)),
   c5_notatoken_amended "resp_garbage" (Or.inr (by decide))⟩

/-- C6: when detag yields NotAToken (`_is_encrypted_response_id` is
false) and the cache lookup is absent, inbound resolution returns `None`
for every access-check function whatsoever — so authorize is never
consulted — and the pre-call hook leaves the request data unchanged. -/
theorem c6_untagged_passthrough
    (check : GeneralSettings → Option String → Option String → UserAPIKeyAuth → Except PyExn Bool)
    (general_settings : GeneralSettings)
    (internal_usage_cache : Option (String → Except String (Option CacheMappingEntry)))
    (caller : UserAPIKeyAuth) (id : String) (data : RequestData)
    (henc : is_encrypted_response_id id = false)
    (hcache : get_cached_response_id_mapping internal_usage_cache id = none)
    (hdata : data.response_id = some id) :
    resolve_encrypted_response_id_with check general_settings internal_usage_cache
        caller id = .ok none
    ∧ async_pre_call_hook_with check general_settings internal_usage_cache caller
        data CallType.aget_responses = .ok (some data) := by
  have hres : resolve_encrypted_response_id_with check general_settings
      internal_usage_cache caller id = .ok none := by
    unfold resolve_encrypted_response_id_with
    simp [henc, hcache]
  refine ⟨hres, ?_⟩
  unfold async_pre_call_hook_with
  rw [hdata]
  by_cases hid : (id == "") = true
  · simp [hid]
  · simp [hid, hres]

/-- C6 witness: a plain id that is neither a token nor cached passes
through unchanged, by the theorem applied with the source's own access
check and no cache. -/
theorem c6_untagged_passthrough_witness :
    resolve_encrypted_response_id_with check_user_access_to_response_id
        { disable_responses_id_security := false } none
        { user_role := none, user_id := some "u", team_id := none, request_route := none }
        "plain_id" = .ok none
    ∧ async_pre_call_hook_with check_user_access_to_response_id
        { disable_responses_id_security := false } none
        { user_role := none, user_id := some "u", team_id := none, request_route := none }
        { previous_response_id := none, response_id := some "plain_id" }
        CallType.aget_responses
      = .ok (some { previous_response_id := none, response_id := some "plain_id" }) :=
  c6_untagged_passthrough check_user_access_to_response_id
    { disable_responses_id_security := false } none
    { user_role := none, user_id := some "u", team_id := none, request_route := none }
    "plain_id" { previous_response_id := none, response_id := some "plain_id" }
    (by decide) rfl rfl

/-- C7: with no signing key configured, outbound tagging returns the
response with its identifier unchanged, and the post-call success hook
performs no cache write. -/
theorem c7_no_signing_key_noop (general_settings : GeneralSettings)
    (hasInternalUsageCache : Bool) (caller : UserAPIKeyAuth)
    (r : BaseResponse) (response : LLMResponse) :
    encrypt_response_id none r caller = r
    ∧ async_post_call_success_hook general_settings none hasInternalUsageCache
        caller response = (response, []) := by
  refine ⟨rfl, ?_⟩
  unfold async_post_call_success_hook
  split_ifs with hdis
  · rfl
  · cases response with
    | otherResponse => rfl
    | responses r0 =>
      have henc : encrypt_response_id none r0 caller = r0 := rfl
      cases hq : get_primary_response_id r0 with
      | none => simp [henc, hq]
      | some o => simp [henc, hq]

/-- C8 counterexample: a response with no usable top-level id and a
nested payload whose id `"foo"` does not match the response-id shape is
nevertheless rewritten by outbound tagging, refuting the claim that
non-matching identifiers leave the response unchanged. -/
theorem c8_nested_unshaped_counterexample :
    encrypt_response_id (some "K") { id := none, response := some { id := "foo" } }
        { user_role := none, user_id := none, team_id := none, request_route := none }
      ≠ { id := none, response := some { id := "foo" } } := by decide

/-- C8 (amended): outbound tagging checks the top-level id first and
rewrites it (leaving the nested payload untouched) only when it matches
the response-id shape; otherwise, when a nested `ResponsesAPIResponse`
payload is present, its id is rewritten regardless of the nested id's
shape (with the top-level id untouched); never both; with neither a
shape-matching top-level id nor a nested payload the response is
returned unchanged. -/
theorem c8_encrypt_branches_amended (key : String) (caller : UserAPIKeyAuth) :
    (∀ rid rs, idMatchesRespShape (some rid) = true →
      encrypt_response_id (some key) { id := some rid, response := rs } caller
        = { id := some (tagForCaller caller rid), response := rs })
    ∧ (∀ i obj, idMatchesRespShape i = false →
        encrypt_response_id (some key) { id := i, response := some obj } caller
          = { id := i, response := some { id := tagForCaller caller obj.id } })
    ∧ (∀ i, idMatchesRespShape i = false →
        encrypt_response_id (some key) { id := i, response := none } caller
          = { id := i, response := none }) := by
  refine ⟨?_, ?_, ?_⟩
  · intro rid rs hshape
    simp only [idMatchesRespShape] at hshape
    simp [encrypt_response_id, hshape, tagForCaller]
  · intro i obj hshape
    cases i with
    | none => simp [encrypt_response_id, encryptNested, tagForCaller]
    | some i0 =>
      simp only [idMatchesRespShape] at hshape
      simp [encrypt_response_id, hshape, encryptNested, tagForCaller]
  · intro i hshape
    cases i with
    | none => simp [encrypt_response_id, encryptNested]
    | some i0 =>
      simp only [idMatchesRespShape] at hshape
      simp [encrypt_response_id, hshape, encryptNested]

/-- C8 witness: the three amended branches at concrete inputs — a
shape-matching top-level id is rewritten in place, a nested payload is
rewritten when the top-level id is absent, and a response with neither is
unchanged. -/
theorem c8_encrypt_branches_amended_witness :
    encrypt_response_id (some "K") { id := some "resp_1", response := none } emptyCaller
      = { id := some (tagForCaller emptyCaller "resp_1"), response := none }
    ∧ encrypt_response_id (some "K") { id := none, response := some { id := "n" } }
        emptyCaller
      = { id := none, response := some { id := tagForCaller emptyCaller "n" } }
    ∧ encrypt_response_id (some "K") { id := none, response := none } emptyCaller
      = { id := none, response := none } :=
  ⟨(c8_encrypt_branches_amended "K" emptyCaller).1 "resp_1" none (by decide),
   (c8_encrypt_branches_amended "K" emptyCaller).2.1 none { id := "n" } (by decide),
   (c8_encrypt_branches_amended "K" emptyCaller).2.2 none (by decide)⟩

/-- C9: the streaming hook yields exactly one output chunk per input
chunk, in emission order, each the per-chunk transform of the source;
when the request route is not the responses API route or security is
disabled, every chunk passes through untouched and no cache write
occurs; and a chunk carrying no identifier is never modified. -/
theorem c9_streaming_order (general_settings : GeneralSettings)
    (signing_key : Option String) (hasInternalUsageCache : Bool)
    (caller : UserAPIKeyAuth) (chunks : List Chunk) :
    (async_post_call_streaming_iterator_hook general_settings signing_key
        hasInternalUsageCache caller chunks).1
      = chunks.map (fun ch => (process_stream_chunk general_settings signing_key
          hasInternalUsageCache caller ch).1)
    ∧ ((caller.request_route == some "/v1/responses") = false
          ∨ general_settings.disable_responses_id_security = true →
        async_post_call_streaming_iterator_hook general_settings signing_key
          hasInternalUsageCache caller chunks = (chunks, []))
    ∧ (∀ b : BaseResponse, b.id = none → b.response = none →
        process_stream_chunk general_settings signing_key hasInternalUsageCache
          caller (some b) = (some b, [])) := by
  have hpass : ((caller.request_route == some "/v1/responses") = false
        ∨ general_settings.disable_responses_id_security = true) →
      ∀ ch, process_stream_chunk general_settings signing_key hasInternalUsageCache
        caller ch = (ch, []) := by
    intro hcond ch
    cases ch with
    | none => rfl
    | some b =>
      unfold process_stream_chunk
      rcases hcond with hc | hc
      · simp [hc]
      · simp [hc]
  refine ⟨?_, ?_, ?_⟩
  · induction chunks with
    | nil => rfl
    | cons ch rest ih =>
      show (process_stream_chunk general_settings signing_key hasInternalUsageCache
          caller ch).1
        :: (async_post_call_streaming_iterator_hook general_settings signing_key
            hasInternalUsageCache caller rest).1
        = _
      rw [List.map_cons, ih]
  · intro hcond
    induction chunks with
    | nil => rfl
    | cons ch rest ih =>
      show ((process_stream_chunk general_settings signing_key hasInternalUsageCache
          caller ch).1
        :: (async_post_call_streaming_iterator_hook general_settings signing_key
            hasInternalUsageCache caller rest).1,
        (process_stream_chunk general_settings signing_key hasInternalUsageCache
          caller ch).2
        ++ (async_post_call_streaming_iterator_hook general_settings signing_key
            hasInternalUsageCache caller rest).2) = (ch :: rest, [])
      rw [hpass hcond ch, ih]
      rfl
  · intro b hid hresp
    unfold process_stream_chunk
    split_ifs with hc
    · have henc : encrypt_response_id signing_key b caller = b := by
        cases signing_key with
        | none => rfl
        | some k => simp [encrypt_response_id, hid, encryptNested, hresp]
      have hpr : get_primary_response_id b = none := by
        simp [get_primary_response_id, hid, getPrimaryNested, hresp]
      simp [henc, hpr]
    · rfl

/-- C9 witness: with a route that is not the responses API route the
stream of a tagged-id chunk and a bare chunk passes through unchanged
with no writes, and an identifier-free chunk is untouched by the
per-chunk transform. -/
theorem c9_streaming_order_witness :
    async_post_call_streaming_iterator_hook { disable_responses_id_security := false }
        (some "K") true
        { user_role := none, user_id := none, team_id := none, request_route := none }
        [some { id := some "resp_1", response := none }, none]
      = ([some { id := some "resp_1", response := none }, none], [])
    ∧ process_stream_chunk { disable_responses_id_security := false } (some "K") true
        { user_role := none, user_id := none, team_id := none, request_route := none }
        (some { id := none, response := none })
      = (some { id := none, response := none }, []) :=
  ⟨(c9_streaming_order { disable_responses_id_security := false } (some "K") true
      { user_role := none, user_id := none, team_id := none, request_route := none }
      [some { id := some "resp_1", response := none }, none]).2.1 (Or.inl rfl),
   (c9_streaming_order { disable_responses_id_security := false } (some "K") true
      { user_role := none, user_id := none, team_id := none, request_route := none }
      []).2.2 { id := none, response := none } rfl rfl⟩

end ResponsesIdSecurity
